import Mathlib

/-!
Verification of the retrieval core of `src/app.py` (Search_Agent).

The file shallowly embeds, from the source:
  * `normalize_url` (app.py lines 66-74), on top of a faithful model of
    Python's `urllib.parse.urlparse` restricted to the fields the code
    reads (`netloc`, `path`; `query`/`fragment` are modelled as well since
    the spec talks about them).  `urlparse` raises `ValueError` on a
    bracket-mismatched netloc ("Invalid IPv6 URL"); that is the reachable
    parse failure caught by the `except` in `normalize_url`.  Python's
    `params` split on a trailing `;segment` is not modelled (no claim
    mentions it), `;` stays part of the path.
  * the inline URL verification check of `firecrawl_scrape_tool`
    (lines 125-128): bidirectional Python `in` containment of the two
    normalized URLs, exposed here as `is_match`.
  * `firecrawl_scrape_tool` (lines 76-180) as `retrieve`.  The two
    collaborators are inputs: the direct-extraction collaborator is an
    `Except Unit PyVal` (its raising, or the value it returned), the search
    collaborator an `Except Unit (List SearchResult)`.  Python values that
    the parsing code inspects are modelled by `PyVal`: strings and string
    keyed dicts.  A non-dict collaborator response is represented by
    `PyVal.vstr` of its `str()` image, which is exactly how the code
    consumes it (line 100).  Values on which `len`/slicing raises fold into
    the same `except` transition as a raising collaborator.
  * the duplicated second `except Exception` block (lines 147-180) as
    `fallbackB`.  Python runs the first matching `except` clause, so
    `retrieve` dispatches to the head of `exceptClauses`; `fallbackB` is
    carried in the list to state its unreachability.
  * `arxiv_search_tool` (lines 48-62) with the arXiv collaborator as an
    input; `arxivRequest` records the request parameters the code sends
    (`max_results=3`, `sort_by=Relevance`).
-/

namespace SearchAgent

/-- `listStarts sub s`: `sub` is a leading segment of `s` (Python `s.startswith(sub)`). -/
def listStarts : List Char → List Char → Bool
  | [], _ => true
  | _ :: _, [] => false
  | a :: as, b :: bs => a == b && listStarts as bs

/-- `listHas sub s`: Python's substring test `sub in s`. -/
def listHas (sub : List Char) : List Char → Bool
  | [] => listStarts sub []
  | b :: bs => listStarts sub (b :: bs) || listHas sub bs

/-- Python `host.replace('www.', '')`: remove the occurrences of `www.`
left to right, non-overlapping. -/
def stripWWW : List Char → List Char
  | 'w' :: 'w' :: 'w' :: '.' :: rest => stripWWW rest
  | c :: rest => c :: stripWWW rest
  | [] => []

/-- Python `host.replace('m.', '')`: remove the occurrences of `m.`
left to right, non-overlapping. -/
def stripM : List Char → List Char
  | 'm' :: '.' :: rest => stripM rest
  | c :: rest => c :: stripM rest
  | [] => []

/-- Characters CPython allows in a URL scheme. -/
def schemeChar (c : Char) : Bool :=
  c.isAlphanum || c == '+' || c == '-' || c == '.'

/-- CPython accepts `url[:i]` as a scheme iff it is nonempty, starts with an
ASCII letter and has only scheme characters. -/
def validScheme : List Char → Bool
  | [] => false
  | c :: rest => c.isAlpha && (c :: rest).all schemeChar

/-- Split a leading `scheme:` off the URL, as CPython `urlsplit` does; on an
absent or invalid scheme the input is left whole. -/
def splitScheme (l : List Char) : List Char × List Char :=
  match l.dropWhile (fun c => c ≠ ':') with
  | ':' :: rest =>
    let before := l.takeWhile (fun c => c ≠ ':')
    if validScheme before then (before.map Char.toLower, rest) else ([], l)
  | _ => ([], l)

/-- A character that does not end the netloc (CPython stops at `/`, `?`, `#`). -/
def notNetlocEnd (c : Char) : Bool :=
  c ≠ '/' && c ≠ '?' && c ≠ '#'

/-- Python `url[:2] == '//'`. -/
def startsSlashSlash : List Char → Bool
  | '/' :: '/' :: _ => true
  | _ => false

/-- Split the netloc off the remainder: only when it starts with `//`. -/
def splitNetloc (rest : List Char) : List Char × List Char :=
  if startsSlashSlash rest then
    ((rest.drop 2).takeWhile notNetlocEnd, (rest.drop 2).dropWhile notNetlocEnd)
  else ([], rest)

/-- The components of `urllib.parse.urlparse` that the program reads. -/
structure UrlParts where
  scheme : List Char
  netloc : List Char
  path : List Char
  query : List Char
  fragment : List Char
deriving Repr, DecidableEq

/-- Model of `urllib.parse.urlparse`: scheme split, `//`-guarded netloc,
fragment split at the first `#`, query split at the first `?`.  `none` is the
`ValueError("Invalid IPv6 URL")` CPython raises when the netloc has exactly
one of `[`, `]`. -/
def urlparse (url : String) : Option UrlParts :=
  let sp := splitScheme url.toList
  let nl := splitNetloc sp.2
  if (nl.1.contains '[' != nl.1.contains ']') then none
  else
    let beforeFrag := nl.2.takeWhile (fun c => c ≠ '#')
    let fragment := (nl.2.dropWhile (fun c => c ≠ '#')).tail
    let path := beforeFrag.takeWhile (fun c => c ≠ '?')
    let query := (beforeFrag.dropWhile (fun c => c ≠ '?')).tail
    some ⟨sp.1, nl.1, path, query, fragment⟩

/-- `normalize_url` (app.py lines 66-74): on a successful parse,
`netloc.replace('www.', '').replace('m.', '')` concatenated with the path;
on a parse failure the `except` returns the URL unchanged. -/
def normalize_url (url : String) : String :=
  match urlparse url with
  | none => url
  | some p => ⟨stripM (stripWWW p.netloc) ++ p.path⟩

/-- Python `sub in s` on strings. -/
def pyIn (sub s : String) : Bool :=
  listHas sub.toList s.toList

/-- The URL verification check of `firecrawl_scrape_tool` (lines 123-128):
`target_norm in res_norm or res_norm in target_norm`. -/
def is_match (candidate target : String) : Bool :=
  let res_norm := normalize_url candidate
  let target_norm := normalize_url target
  pyIn target_norm res_norm || pyIn res_norm target_norm

/-- `a` occurs as a contiguous substring of `b`. -/
def isSubstringOf (a b : String) : Prop :=
  ∃ l r, b.toList = l ++ a.toList ++ r

/-- Python values the scrape-result parsing inspects: strings and
string-keyed dicts.  A non-dict collaborator response is represented by the
`vstr` of its `str()` image (the only use the code makes of it). -/
inductive PyVal where
  | vstr : String → PyVal
  | vdict : List (String × PyVal) → PyVal

/-- Python `dict.get` (dict keys are unique, so first-match lookup). -/
def lookupKey : List (String × PyVal) → String → Option PyVal
  | [], _ => none
  | (k', v) :: rest, k => if k' = k then some v else lookupKey rest k

/-- Python truthiness (`not content`) for the modelled values. -/
def pyFalsy : PyVal → Bool
  | .vstr s => s.data.isEmpty
  | .vdict d => d.isEmpty

/-- Python `len` for the modelled values. -/
def pyLen : PyVal → Nat
  | .vstr s => s.data.length
  | .vdict d => d.length

/-- Python `s[:n]` on a string. -/
def pySlice (n : Nat) (s : String) : String :=
  ⟨s.data.take n⟩

/-- The dict probing of lines 96-98: `scrape_result.get('markdown', "")`,
then (when that is falsy) `scrape_result['data'].get('markdown', "")`.
`.error` is the `AttributeError` Python raises when the `data` value is not
a dict, which transitions to the fallback like any other in-`try`
exception. -/
def dictContent (d : List (String × PyVal)) : Except Unit PyVal :=
  let c := (lookupKey d "markdown").getD (.vstr "")
  if pyFalsy c then
    match lookupKey d "data" with
    | some (.vdict dd) => .ok ((lookupKey dd "markdown").getD (.vstr ""))
    | some (.vstr _) => .error ()
    | none => .ok c
  else .ok c

/-- The content-extraction block of `firecrawl_scrape_tool` (lines 93-100):
a dict is probed via `dictContent`, a non-dict is stringified
(`content = str(scrape_result)`, line 100). -/
def parseContent : PyVal → Except Unit PyVal
  | .vstr s => .ok (.vstr s)
  | .vdict d => dictContent d

/-- `content[:4000]` (line 109): slicing a dict raises `TypeError`, hence
the `vdict` arm folds into the exception transition. -/
def sliceContent : PyVal → Option String
  | .vstr s => some (pySlice 4000 s)
  | .vdict _ => none

/-- The length gate of lines 102-104 followed by the slice of line 109. -/
def contentGate : Except Unit PyVal → Option String
  | .error _ => none
  | .ok c => if pyFalsy c ∨ pyLen c < 100 then none else sliceContent c

/-- The whole direct stage (lines 84-110): `some c` iff the `success`
return on line 106 is reached, with `c` the (truncated) content; `none` iff
an exception transitions control to the `except` chain. -/
def directResult : Except Unit PyVal → Option String
  | .error _ => none
  | .ok r => contentGate (parseContent r)

/-- One result of the search collaborator, as the fallback code reads it:
`res.get('url', '')` and the rendered `title`/`content` fields. -/
structure SearchResult where
  url : String
  title : String
  content : String
deriving Repr, DecidableEq

/-- The `status` values the tool emits. -/
inductive Status where
  | success
  | fallback_success
  | error
deriving Repr, DecidableEq

/-- The JSON document `firecrawl_scrape_tool` serializes; `none` fields are
absent keys. -/
structure RetrievalOutcome where
  status : Status
  method : Option String := none
  content : Option String := none
  message : Option String := none
  note : Option String := none
deriving Repr, DecidableEq

/-- The refusal message of line 135. -/
def refusalMessage : String :=
  "페이지 내용을 읽을 수 없습니다. (스크래핑 차단 및 검색 캐시 없음). 거짓 정보를 드리지 않기 위해 답변을 중단합니다."

/-- The message of line 145. -/
def totalFailureMessage : String :=
  "정보 수집 완전 실패"

/-- One matched entry, line 129. -/
def matchedEntry (r : SearchResult) : String :=
  "- 제목: " ++ r.title ++ "\n- 내용: " ++ r.content

/-- A behaviour of the search collaborator: raising, or a result list. -/
abbrev SearchBehaviour := Except Unit (List SearchResult)

/-- The first `except` block (lines 113-145): search, keep only the
URL-verified results, refuse when none verifies; a raising search
collaborator yields the line-145 error. -/
def fallbackA (search : SearchBehaviour) (url : String) : RetrievalOutcome :=
  match search with
  | .error _ => { status := .error, message := some totalFailureMessage }
  | .ok raw_results =>
    let matched := (raw_results.filter (fun res => is_match res.url url)).map matchedEntry
    if matched.isEmpty then
      { status := .error, message := some refusalMessage }
    else
      { status := .fallback_success
        method := some "verified_search_cache"
        content := some (String.intercalate "\n\n" matched) }

/-- The duplicated second `except` block (lines 147-180), transcribed for
the dead-code claim; the exception texts interpolated into the line-179
message are not modelled. -/
def fallbackB (search : SearchBehaviour) (_url : String) : RetrievalOutcome :=
  match search with
  | .error _ =>
    { status := .error, message := some "모든 수집 시도 실패. Firecrawl: , Tavily: " }
  | .ok results =>
    if results.isEmpty then
      { status := .error, message := some "스크래핑 및 검색 우회 모두 실패했습니다." }
    else
      let entries := (results.take 2).map (fun res =>
        "- 제목: " ++ res.title ++ "\n- 내용요약: " ++ res.content ++ "\n- 링크: " ++ res.url)
      { status := .fallback_success
        method := some "tavily_search_fallback"
        note := some "직접 접속이 차단되어 검색 엔진의 요약 정보를 대신 제공합니다. 전체 전문이 아닐 수 있습니다."
        content := some (String.intercalate "\n\n" entries) }

/-- The ordered `except Exception` clauses of the `try` (both catch every
exception, so Python always runs the first). -/
def exceptClauses : List (SearchBehaviour → String → RetrievalOutcome) :=
  [fallbackA, fallbackB]

/-- `firecrawl_scrape_tool` (lines 76-180): direct stage, else the first
matching `except` clause. -/
def retrieve (scrape : Except Unit PyVal) (search : SearchBehaviour) (url : String) :
    RetrievalOutcome :=
  match directResult scrape with
  | some c => { status := .success, method := some "direct_scrape", content := some c }
  | none => (exceptClauses.head (by simp [exceptClauses])) search url

/-- The sort criteria of the arXiv collaborator. -/
inductive SortCriterion where
  | Relevance
  | LastUpdatedDate
  | SubmittedDate
deriving Repr, DecidableEq

/-- The request `arxiv_search_tool` builds on line 51. -/
structure ArxivRequest where
  query : String
  max_results : Nat
  sort_by : SortCriterion
deriving Repr, DecidableEq

/-- One paper as the collaborator yields it (line 53), with `published`
already rendered by `strftime`. -/
structure ArxivPaper where
  title : String
  summary : String
  published : String
  pdf_url : String
deriving Repr, DecidableEq

/-- Line 51: `arxiv.Search(query=query, max_results=3, sort_by=Relevance)`. -/
def arxivRequest (query : String) : ArxivRequest :=
  { query := query, max_results := 3, sort_by := .Relevance }

/-- Lines 54-59: the serialized entry for one paper
(`summary[:200] + "..."`, other fields verbatim). -/
def serializePaper (p : ArxivPaper) : ArxivPaper :=
  { p with summary := pySlice 200 p.summary ++ "..." }

/-- `arxiv_search_tool` (lines 48-62): the collaborator is called with the
line-51 request; its raising is caught and rendered as an error text. -/
def arxiv_search_tool (collab : ArxivRequest → Except Unit (List ArxivPaper))
    (query : String) : Except String (List ArxivPaper) :=
  match collab (arxivRequest query) with
  | .ok papers => .ok (papers.map serializePaper)
  | .error _ => .error "Error"

/-! ## Helper lemmas -/

theorem listStarts_iff (sub : List Char) : ∀ s, listStarts sub s = true ↔ ∃ r, s = sub ++ r := by
  induction sub with
  | nil => intro s; simp [listStarts]
  | cons a as ih =>
    intro s
    cases s with
    | nil => simp [listStarts]
    | cons b bs =>
      simp only [listStarts, Bool.and_eq_true, beq_iff_eq, ih, List.cons_append,
        List.cons.injEq]
      constructor
      · rintro ⟨hab, r, hr⟩
        exact ⟨r, hab.symm, hr⟩
      · rintro ⟨r, hba, hr⟩
        exact ⟨hba.symm, r, hr⟩

theorem listHas_iff (sub : List Char) : ∀ s, listHas sub s = true ↔ ∃ l r, s = l ++ sub ++ r := by
  intro s
  induction s with
  | nil =>
    simp only [listHas, listStarts_iff]
    constructor
    · rintro ⟨r, hr⟩
      exact ⟨[], r, by simpa using hr⟩
    · rintro ⟨l, r, hr⟩
      have h0 : (l ++ sub) ++ r = [] := by simpa using hr.symm
      have h1 := List.append_eq_nil.mp h0
      have h2 := List.append_eq_nil.mp h1.1
      exact ⟨[], by simp [h2.2]⟩
  | cons b bs ih =>
    simp only [listHas, Bool.or_eq_true, listStarts_iff, ih]
    constructor
    · rintro (⟨r, hr⟩ | ⟨l, r, hr⟩)
      · exact ⟨[], r, by simpa using hr⟩
      · exact ⟨b :: l, r, by simp [hr]⟩
    · rintro ⟨l, r, hr⟩
      cases l with
      | nil => exact Or.inl ⟨r, by simpa using hr⟩
      | cons c l' =>
        simp only [List.cons_append, List.cons.injEq] at hr
        exact Or.inr ⟨l', r, hr.2⟩

theorem pyIn_iff (sub s : String) : pyIn sub s = true ↔ isSubstringOf sub s := by
  simpa [pyIn, isSubstringOf] using listHas_iff sub.toList s.toList

theorem mem_stripWWW {x : Char} : ∀ {l : List Char}, x ∈ stripWWW l → x ∈ l := by
  intro l
  induction l using stripWWW.induct with
  | case1 rest ih =>
    intro h
    have := ih (by simpa [stripWWW] using h)
    simp [this]
  | case2 c rest hne ih =>
    intro h
    rw [stripWWW] at h
    · rcases List.mem_cons.mp h with h | h
      · simp [h]
      · simpa using Or.inr (ih h)
    · exact hne
  | case3 => intro h; simp [stripWWW] at h

theorem mem_stripM {x : Char} : ∀ {l : List Char}, x ∈ stripM l → x ∈ l := by
  intro l
  induction l using stripM.induct with
  | case1 rest ih =>
    intro h
    have := ih (by simpa [stripM] using h)
    simp [this]
  | case2 c rest hne ih =>
    intro h
    rw [stripM] at h
    · rcases List.mem_cons.mp h with h | h
      · simp [h]
      · simpa using Or.inr (ih h)
    · exact hne
  | case3 => intro h; simp [stripM] at h

theorem mem_takeWhile_pred {p : Char → Bool} : ∀ {l : List Char} {x : Char},
    x ∈ l.takeWhile p → p x = true := by
  intro l
  induction l with
  | nil => intro x h; simp [List.takeWhile] at h
  | cons c cs ih =>
    intro x h
    rw [List.takeWhile_cons] at h
    by_cases hc : p c
    · simp only [hc, if_pos] at h
      rcases List.mem_cons.mp h with h | h
      · rw [h]; exact hc
      · exact ih h
    · simp [hc] at h

theorem mem_takeWhile_mem {p : Char → Bool} : ∀ {l : List Char} {x : Char},
    x ∈ l.takeWhile p → x ∈ l := by
  intro l
  induction l with
  | nil => intro x h; simp [List.takeWhile] at h
  | cons c cs ih =>
    intro x h
    rw [List.takeWhile_cons] at h
    by_cases hc : p c
    · simp only [hc, if_pos] at h
      rcases List.mem_cons.mp h with h | h
      · simp [h]
      · simpa using Or.inr (ih h)
    · simp [hc] at h

theorem take_of_len_le : ∀ (l : List Char) (n : Nat), l.length ≤ n → l.take n = l := by
  intro l
  induction l with
  | nil => intro n _; simp
  | cons c cs ih =>
    intro n hn
    cases n with
    | zero => simp at hn
    | succ m => simpa using ih m (by simpa using hn)

theorem splitNetloc_chars {r : List Char} {x : Char} (h : x ∈ (splitNetloc r).1) :
    notNetlocEnd x = true := by
  unfold splitNetloc at h
  by_cases hs : startsSlashSlash r
  · rw [if_pos hs] at h
    exact mem_takeWhile_pred h
  · rw [if_neg hs] at h
    simp at h

theorem urlparse_inv {url : String} {p : UrlParts} (h : urlparse url = some p) :
    (∀ x ∈ p.netloc, notNetlocEnd x = true) ∧
    (∀ x ∈ p.path, x ≠ '?' ∧ x ≠ '#') := by
  unfold urlparse at h
  by_cases hbr : ((splitNetloc (splitScheme url.toList).2).1.contains '[' !=
      (splitNetloc (splitScheme url.toList).2).1.contains ']') = true
  · simp only [hbr, if_pos] at h
    exact absurd h (by simp)
  · simp only [hbr, if_neg, Bool.not_eq_true] at h
    injection h with h
    subst h
    refine ⟨fun x hx => splitNetloc_chars hx, fun x hx => ?_⟩
    constructor
    · have := mem_takeWhile_pred hx
      simpa using this
    · have hx2 := mem_takeWhile_mem hx
      have := mem_takeWhile_pred hx2
      simpa using this

theorem string_length_data (s : String) : s.length = s.data.length := by
  cases s
  rfl

theorem toList_mk (l : List Char) : (String.mk l).toList = l := rfl

theorem directResult_of_parse {r : PyVal} {s : String}
    (hp : parseContent r = .ok (.vstr s)) (hlen : 100 ≤ s.length) :
    directResult (.ok r) = some (pySlice 4000 s) := by
  have hdata : 100 ≤ s.data.length := by rw [← string_length_data]; exact hlen
  have hcond : ¬ (pyFalsy (.vstr s) = true ∨ pyLen (.vstr s) < 100) := by
    show ¬ (s.data.isEmpty = true ∨ s.data.length < 100)
    rcases hds : s.data with _ | ⟨c, cs⟩
    · rw [hds] at hdata; simp at hdata
    · rw [hds] at hdata
      push_neg
      exact ⟨by simp, by omega⟩
  have h1 : directResult (.ok r) = contentGate (parseContent r) := rfl
  rw [h1, hp]
  have h2 : contentGate (.ok (.vstr s)) =
      if pyFalsy (.vstr s) = true ∨ pyLen (.vstr s) < 100 then none
      else sliceContent (.vstr s) := rfl
  rw [h2, if_neg hcond]
  rfl

theorem directResult_short {r c : PyVal}
    (hp : parseContent r = .ok c) (hlen : pyLen c < 100) :
    directResult (.ok r) = none := by
  have h1 : directResult (.ok r) = contentGate (parseContent r) := rfl
  rw [h1, hp]
  have h2 : contentGate (.ok c) =
      if pyFalsy c = true ∨ pyLen c < 100 then none else sliceContent c := rfl
  rw [h2, if_pos (Or.inr hlen)]

theorem retrieve_direct {scrape : Except Unit PyVal} {c : String}
    (search : SearchBehaviour) (url : String) (h : directResult scrape = some c) :
    retrieve scrape search url =
      { status := .success, method := some "direct_scrape", content := some c } := by
  unfold retrieve
  rw [h]

theorem retrieve_fallback {scrape : Except Unit PyVal}
    (search : SearchBehaviour) (url : String) (h : directResult scrape = none) :
    retrieve scrape search url = fallbackA search url := by
  unfold retrieve
  rw [h]
  rfl

theorem fallbackA_cases (search : SearchBehaviour) (url : String) :
    fallbackA search url = { status := .error, message := some totalFailureMessage } ∨
    fallbackA search url = { status := .error, message := some refusalMessage } ∨
    ∃ c, fallbackA search url =
      { status := .fallback_success, method := some "verified_search_cache",
        content := some c } := by
  unfold fallbackA
  cases search with
  | error e => exact Or.inl rfl
  | ok rs =>
    by_cases hm : ((rs.filter (fun res => is_match res.url url)).map matchedEntry).isEmpty
    · exact Or.inr (Or.inl (by simp [hm]))
    · exact Or.inr (Or.inr
        ⟨String.intercalate "\n\n"
          ((rs.filter (fun res => is_match res.url url)).map matchedEntry),
         by simp [hm]⟩)

theorem fallbackA_method_ne (search : SearchBehaviour) (url : String) :
    (fallbackA search url).method ≠ some "direct_scrape" := by
  rcases fallbackA_cases search url with h | h | ⟨c, h⟩ <;> rw [h] <;> simp

/-! ## Claim theorems -/

/-- C1: whenever the fallback search path is reached and none of the search
collaborator's results matches the target URL under `is_match`, `retrieve`
yields the constant `error` outcome carrying the refusal message — an
outcome independent of the result set, so no unrelated result's title or
content appears in it, even when the result set is non-empty. -/
theorem c1_refusal_when_no_match (url : String) (scrape : Except Unit PyVal)
    (results : List SearchResult)
    (hdirect : directResult scrape = none)
    (hnomatch : ∀ r ∈ results, is_match r.url url = false) :
    retrieve scrape (.ok results) url =
      { status := .error, message := some refusalMessage } := by
  rw [retrieve_fallback _ _ hdirect]
  have hfilter : results.filter (fun res => is_match res.url url) = [] := by
    rw [List.filter_eq_nil_iff]
    intro a ha
    simp [hnomatch a ha]
  simp [fallbackA, hfilter]

/-- C1 witness: a concrete non-empty, unrelated result set ends in the
refusal outcome. -/
theorem c1_witness :
    directResult (Except.error ()) = none ∧
    (∀ r ∈ [SearchResult.mk "https://other.com/x" "Unrelated title" "Unrelated content"],
      is_match r.url "https://example.com/a" = false) ∧
    retrieve (.error ())
        (.ok [SearchResult.mk "https://other.com/x" "Unrelated title" "Unrelated content"])
        "https://example.com/a" =
      { status := .error, message := some refusalMessage } :=
  ⟨rfl, by decide,
    c1_refusal_when_no_match "https://example.com/a" (.error ()) _ rfl (by decide)⟩

/-- C2: for every behaviour of the two collaborators (raising included)
`retrieve` is a total function into `RetrievalOutcome` — it cannot raise —
and its outcome populates `content` exactly on `success`/`fallback_success`,
`message` exactly on `error`, never both. -/
theorem c2_outcome_invariant (scrape : Except Unit PyVal) (search : SearchBehaviour)
    (url : String) :
    (((retrieve scrape search url).status = .success ∨
      (retrieve scrape search url).status = .fallback_success) ↔
      ((retrieve scrape search url).content.isSome ∧
       (retrieve scrape search url).message = none)) ∧
    ((retrieve scrape search url).status = .error ↔
      ((retrieve scrape search url).message.isSome ∧
       (retrieve scrape search url).content = none)) := by
  cases hd : directResult scrape with
  | some c => rw [retrieve_direct search url hd]; simp
  | none =>
    rw [retrieve_fallback search url hd]
    rcases fallbackA_cases search url with h | h | ⟨c, h⟩ <;> rw [h] <;> simp

/-- C3: a direct extraction whose textual content has at least 100
characters yields `success`/`direct_scrape` with the first 4000 characters
(the content verbatim when it is at most 4000 characters long); extracted
content under 100 characters (empty included) never yields `direct_scrape`
and control proceeds to the fallback search stage. -/
theorem c3_direct_threshold :
    (∀ (r : PyVal) (s : String) (search : SearchBehaviour) (url : String),
      parseContent r = .ok (.vstr s) → 100 ≤ s.length →
      retrieve (.ok r) search url =
        { status := .success, method := some "direct_scrape",
          content := some (pySlice 4000 s) } ∧
      (s.length ≤ 4000 → pySlice 4000 s = s)) ∧
    (∀ (r c : PyVal) (search : SearchBehaviour) (url : String),
      parseContent r = .ok c → pyLen c < 100 →
      (retrieve (.ok r) search url).method ≠ some "direct_scrape" ∧
      retrieve (.ok r) search url = fallbackA search url) := by
  constructor
  · intro r s search url hp hlen
    refine ⟨retrieve_direct search url (directResult_of_parse hp hlen), fun hle => ?_⟩
    have htake : s.data.take 4000 = s.data :=
      take_of_len_le _ _ (by rw [← string_length_data]; exact hle)
    show String.mk (s.data.take 4000) = s
    rw [htake]
  · intro r c search url hp hlen
    have h2 := retrieve_fallback search url (directResult_short hp hlen)
    refine ⟨?_, h2⟩
    rw [h2]
    exact fallbackA_method_ne search url

set_option maxRecDepth 4000 in
/-- C3 witness: a 100-character extraction is returned verbatim as
`direct_scrape`; a short one falls back. -/
theorem c3_witness :
    parseContent (.vstr (String.mk (List.replicate 100 'a'))) =
      .ok (.vstr (String.mk (List.replicate 100 'a'))) ∧
    100 ≤ (String.mk (List.replicate 100 'a')).length ∧
    retrieve (.ok (.vstr (String.mk (List.replicate 100 'a')))) (.ok []) "u" =
      { status := .success, method := some "direct_scrape",
        content := some (pySlice 4000 (String.mk (List.replicate 100 'a'))) } ∧
    parseContent (.vstr "short") = .ok (.vstr "short") ∧
    pyLen (.vstr "short") < 100 ∧
    (retrieve (.ok (.vstr "short")) (.ok []) "u").method ≠ some "direct_scrape" :=
  ⟨rfl, by decide,
    (c3_direct_threshold.1 (.vstr (String.mk (List.replicate 100 'a')))
      (String.mk (List.replicate 100 'a')) (.ok []) "u" rfl (by decide)).1,
    rfl, by decide,
    (c3_direct_threshold.2 (.vstr "short") (.vstr "short") (.ok []) "u"
      rfl (by decide)).1⟩

/-- C4: `is_match` is exactly bidirectional substring containment of the
two normalized URLs, and the two example pairs behave as stated. -/
theorem c4_is_match_bidirectional_containment :
    (∀ candidate target : String,
      is_match candidate target = true ↔
        (isSubstringOf (normalize_url candidate) (normalize_url target) ∨
         isSubstringOf (normalize_url target) (normalize_url candidate))) ∧
    is_match "https://m.example.com/a/b" "https://www.example.com/a/b" = true ∧
    is_match "https://example.com/a" "https://other.com/x" = false := by
  refine ⟨fun candidate target => ?_, by decide, by decide⟩
  simp only [is_match, Bool.or_eq_true, pyIn_iff]
  exact or_comm

/-- C5 counterexample: the claim says a query string survives
normalization; on `https://example.com/a?q=1` the URL parses with query
`q=1`, yet the normalized form is `example.com/a`, which does not contain
`q=1`. -/
theorem c5_counterexample :
    urlparse "https://example.com/a?q=1" =
      some ⟨"https".toList, "example.com".toList, "/a".toList, "q=1".toList, []⟩ ∧
    normalize_url "https://example.com/a?q=1" = "example.com/a" ∧
    pyIn "q=1" (normalize_url "https://example.com/a?q=1") = false :=
  ⟨by decide, by decide, by decide⟩

/-- C5 amended: `normalize_url` does strip the query string and fragment —
on every successful parse the normalized form is host (after token
stripping) concatenated with path only, and contains no `?` or `#`
character at all. -/
theorem c5_amended_no_query_fragment (url : String) (p : UrlParts)
    (h : urlparse url = some p) :
    ('?' ∉ (normalize_url url).toList) ∧ ('#' ∉ (normalize_url url).toList) := by
  obtain ⟨hnet, hpath⟩ := urlparse_inv h
  have hn : normalize_url url = ⟨stripM (stripWWW p.netloc) ++ p.path⟩ := by
    unfold normalize_url
    rw [h]
  rw [hn, toList_mk]
  constructor <;> intro hmem <;> rcases List.mem_append.mp hmem with h1 | h2
  · simpa [notNetlocEnd] using hnet _ (mem_stripWWW (mem_stripM h1))
  · exact (hpath _ h2).1 rfl
  · simpa [notNetlocEnd] using hnet _ (mem_stripWWW (mem_stripM h1))
  · exact (hpath _ h2).2 rfl

/-- C5 amended witness: on a URL with both query and fragment, neither
survives normalization. -/
theorem c5_amended_witness :
    urlparse "https://example.com/a?q=1#f" =
      some ⟨"https".toList, "example.com".toList, "/a".toList, "q=1".toList, "f".toList⟩ ∧
    '?' ∉ (normalize_url "https://example.com/a?q=1#f").toList ∧
    '#' ∉ (normalize_url "https://example.com/a?q=1#f").toList :=
  ⟨by decide,
    (c5_amended_no_query_fragment "https://example.com/a?q=1#f"
      ⟨"https".toList, "example.com".toList, "/a".toList, "q=1".toList, "f".toList⟩
      (by decide)).1,
    (c5_amended_no_query_fragment "https://example.com/a?q=1#f"
      ⟨"https".toList, "example.com".toList, "/a".toList, "q=1".toList, "f".toList⟩
      (by decide)).2⟩

/-- C6: `normalize_url` strips the occurrences of `www.` and `m.` anywhere
in the host (not only as a leading label — witness the two non-leading
examples), returns host concatenated with path, and on a parse failure
fails open, returning the URL unchanged. -/
theorem c6_normalize_strip_and_failopen :
    (∀ url, urlparse url = none → normalize_url url = url) ∧
    (∀ url p, urlparse url = some p →
      normalize_url url = ⟨stripM (stripWWW p.netloc) ++ p.path⟩) ∧
    normalize_url "https://a.www.b.com/x" = "a.b.com/x" ∧
    normalize_url "https://team.example.com/p" = "teaexample.com/p" := by
  refine ⟨fun url h => ?_, fun url p h => ?_, by decide, by decide⟩
  · unfold normalize_url; rw [h]
  · unfold normalize_url; rw [h]

/-- C6 witness: a bracket-mismatched netloc is the reachable parse failure
(`ValueError: Invalid IPv6 URL`) and the URL comes back unchanged; a
well-formed URL goes through the stripping path. -/
theorem c6_witness :
    urlparse "http://[a/x" = none ∧
    normalize_url "http://[a/x" = "http://[a/x" ∧
    urlparse "https://www.example.com/a" =
      some ⟨"https".toList, "www.example.com".toList, "/a".toList, [], []⟩ ∧
    normalize_url "https://www.example.com/a" =
      ⟨stripM (stripWWW "www.example.com".toList) ++ "/a".toList⟩ :=
  ⟨by decide,
    c6_normalize_strip_and_failopen.1 "http://[a/x" (by decide),
    by decide,
    c6_normalize_strip_and_failopen.2.1 "https://www.example.com/a"
      ⟨"https".toList, "www.example.com".toList, "/a".toList, [], []⟩ (by decide)⟩

set_option maxRecDepth 4000 in
/-- C7 counterexample: a non-dict direct-extraction response (here a bare
120-character string) is NOT treated as absent content — the code
stringifies it and returns it as a `direct_scrape` success, contradicting
the claim. -/
theorem c7_counterexample :
    retrieve (.ok (.vstr (String.mk (List.replicate 120 'x')))) (.ok [])
        "https://example.com/a" =
      { status := .success, method := some "direct_scrape",
        content := some (String.mk (List.replicate 120 'x')) } := by
  decide

/-- C7 amended: a dict response lacking both the top-level content field
and a nested data-dict content field is treated as absent content and
proceeds to fallback, never `direct_scrape`; a non-dict response is instead
coerced to its string form, which is returned as a `direct_scrape` success
whenever it reaches 100 characters. -/
theorem c7_amended_dict_absent (d : List (String × PyVal)) (s : String)
    (search : SearchBehaviour) (url : String)
    (hmd : lookupKey d "markdown" = none)
    (hdata : lookupKey d "data" = none ∨
      ∃ dd, lookupKey d "data" = some (.vdict dd) ∧ lookupKey dd "markdown" = none)
    (hlen : 100 ≤ s.length) :
    ((retrieve (.ok (.vdict d)) search url).method ≠ some "direct_scrape" ∧
     retrieve (.ok (.vdict d)) search url = fallbackA search url) ∧
    retrieve (.ok (.vstr s)) search url =
      { status := .success, method := some "direct_scrape",
        content := some (pySlice 4000 s) } := by
  have hpc : parseContent (.vdict d) = .ok (.vstr "") := by
    have h1 : parseContent (.vdict d) = dictContent d := rfl
    rw [h1]
    unfold dictContent
    rw [hmd]
    rcases hdata with hnone | ⟨dd, hdd, hmd2⟩
    · rw [hnone]
      rfl
    · rw [hdd]
      show Except.ok ((lookupKey dd "markdown").getD (PyVal.vstr "")) =
        Except.ok (PyVal.vstr "")
      rw [hmd2]
      rfl
  have hd : directResult (.ok (.vdict d)) = none := directResult_short hpc (by decide)
  have h2 := retrieve_fallback search url hd
  refine ⟨⟨?_, h2⟩, retrieve_direct search url (directResult_of_parse rfl hlen)⟩
  rw [h2]
  exact fallbackA_method_ne search url

set_option maxRecDepth 4000 in
/-- C7 amended witness: a dict with neither content location falls back; a
150-character non-dict string is returned as `direct_scrape`. -/
theorem c7_amended_witness :
    lookupKey [("x", PyVal.vstr "y")] "markdown" = none ∧
    lookupKey [("x", PyVal.vstr "y")] "data" = none ∧
    100 ≤ (String.mk (List.replicate 150 'z')).length ∧
    retrieve (.ok (.vdict [("x", PyVal.vstr "y")])) (.ok []) "u" = fallbackA (.ok []) "u" ∧
    retrieve (.ok (.vstr (String.mk (List.replicate 150 'z')))) (.ok []) "u" =
      { status := .success, method := some "direct_scrape",
        content := some (pySlice 4000 (String.mk (List.replicate 150 'z'))) } :=
  ⟨rfl, rfl, by decide,
    ((c7_amended_dict_absent [("x", PyVal.vstr "y")] (String.mk (List.replicate 150 'z'))
      (.ok []) "u" rfl (Or.inl rfl) (by decide)).1).2,
    (c7_amended_dict_absent [("x", PyVal.vstr "y")] (String.mk (List.replicate 150 'z'))
      (.ok []) "u" rfl (Or.inl rfl) (by decide)).2⟩

/-- C8: the academic-paper dispatch always sends the collaborator a
request with `max_results = 3` sorted by relevance, and (the collaborator
honouring the requested count, per the interface contract) returns at most
3 papers, each serialized with its title, its summary truncated to 200
characters (with an ellipsis appended), its publication date and its PDF
link. -/
theorem c8_arxiv_top3_relevance
    (collab : ArxivRequest → Except Unit (List ArxivPaper)) (query : String)
    (papers : List ArxivPaper)
    (hc : collab (arxivRequest query) = .ok papers)
    (hlen : papers.length ≤ 3) :
    (arxivRequest query).max_results = 3 ∧
    (arxivRequest query).sort_by = .Relevance ∧
    arxiv_search_tool collab query = .ok (papers.map serializePaper) ∧
    (papers.map serializePaper).length ≤ 3 ∧
    (∀ p ∈ papers, serializePaper p =
      { title := p.title, summary := pySlice 200 p.summary ++ "...",
        published := p.published, pdf_url := p.pdf_url }) := by
  refine ⟨rfl, rfl, ?_, by simpa using hlen, fun p _ => rfl⟩
  unfold arxiv_search_tool
  rw [hc]

/-- C8 witness: a concrete one-paper collaborator. -/
theorem c8_witness :
    (fun _ : ArxivRequest =>
      (Except.ok [ArxivPaper.mk "T" "S" "2024-01-01" "p.pdf"] :
        Except Unit (List ArxivPaper))) (arxivRequest "q") =
      .ok [ArxivPaper.mk "T" "S" "2024-01-01" "p.pdf"] ∧
    ([ArxivPaper.mk "T" "S" "2024-01-01" "p.pdf"] : List ArxivPaper).length ≤ 3 ∧
    arxiv_search_tool
      (fun _ => (Except.ok [ArxivPaper.mk "T" "S" "2024-01-01" "p.pdf"] :
        Except Unit (List ArxivPaper))) "q" =
      .ok ([ArxivPaper.mk "T" "S" "2024-01-01" "p.pdf"].map serializePaper) :=
  ⟨rfl, by decide,
    (c8_arxiv_top3_relevance _ "q" _ rfl (by decide)).2.2.1⟩

/-- C9: the duplicated second except-branch (`fallbackB`) is dead code —
Python runs the first matching except clause, so `retrieve` never produces
`method = tavily_search_fallback` and never a `note`, and every
`fallback_success` outcome carries `method = verified_search_cache`. -/
theorem c9_dead_fallback_branch (scrape : Except Unit PyVal) (search : SearchBehaviour)
    (url : String) :
    (retrieve scrape search url).method ≠ some "tavily_search_fallback" ∧
    (retrieve scrape search url).note = none ∧
    ((retrieve scrape search url).status = .fallback_success →
      (retrieve scrape search url).method = some "verified_search_cache") := by
  cases hd : directResult scrape with
  | some c =>
    rw [retrieve_direct search url hd]
    exact ⟨by simp, rfl, fun hst => by simp at hst⟩
  | none =>
    rw [retrieve_fallback search url hd]
    rcases fallbackA_cases search url with h | h | ⟨c, h⟩ <;> rw [h]
    · exact ⟨by simp, rfl, fun hst => by simp at hst⟩
    · exact ⟨by simp, rfl, fun hst => by simp at hst⟩
    · exact ⟨by simp, rfl, fun _ => rfl⟩

/-- C9 witness: a fallback_success outcome exists and carries the verified
method. -/
theorem c9_witness :
    (retrieve (.error ()) (.ok [SearchResult.mk "https://example.com/a" "T" "C"])
      "https://example.com/a").status = .fallback_success ∧
    (retrieve (.error ()) (.ok [SearchResult.mk "https://example.com/a" "T" "C"])
      "https://example.com/a").method = some "verified_search_cache" :=
  ⟨by decide,
    (c9_dead_fallback_branch (.error ())
      (.ok [SearchResult.mk "https://example.com/a" "T" "C"])
      "https://example.com/a").2.2 (by decide)⟩

/-- C10: `is_match` is symmetric, its two containment tests being each
other's mirror. -/
theorem c10_is_match_symmetric (a b : String) : is_match a b = is_match b a := by
  simp only [is_match]
  exact Bool.or_comm _ _

end SearchAgent
